import Mathlib

/-!
Verification of the ktimetracker daemon (Rust sources in `src/`) against its
natural-language specification.  The SQLite-backed interval table and the
operations on it (`src/db.rs`), the daemon event loop (`src/daemon.rs`), the
date parser and the Unix-socket client handler are shallowly embedded as pure
Lean functions; timestamps are integers (Unix seconds), the table is a list of
rows, and fallible operations return `Except`.
-/

namespace KTimeTracker

/-- A row of the `activities` table (`src/db.rs`, struct `Activity` and the
`CREATE TABLE` in `Database::setup`): `id` autoincrement primary key,
`name TEXT NOT NULL`, `start_time INTEGER NOT NULL`, `end_time INTEGER`
nullable.  `end_time = none` means the interval is currently open. -/
structure Activity where
  id : Int
  name : String
  start_time : Int
  end_time : Option Int
deriving Repr, DecidableEq

/-- The persisted state: the `activities` table as a list of rows, in
insertion order. -/
abbrev Db := List Activity

/-- `Database::end_current_activity` (`src/db.rs` lines 49-62): the SQL
`UPDATE activities SET end_time = ? WHERE end_time IS NULL` with the current
timestamp `ts` bound — every row whose `end_time` is NULL gets `end_time = ts`,
all other rows are untouched. -/
def end_current_activity (ts : Int) (db : Db) : Db :=
  db.map fun r =>
    match r.end_time with
    | none => { r with end_time := some ts }
    | some _ => r

/-- `Database::switch_activity` (`src/db.rs` lines 64-79): first calls
`end_current_activity` (reading the clock once, `tsEnd`), then inserts
`(name, start_time)` with a freshly read clock value `tsStart` and a NULL
`end_time`; the autoincrement id is modelled as the current row count. -/
def switch_activity (new_activity : String) (tsEnd tsStart : Int) (db : Db) : Db :=
  let db := end_current_activity tsEnd db
  db ++ [⟨db.length, new_activity, tsStart, none⟩]

/-- Number of open intervals (rows with `end_time` NULL) in the table. -/
def openCount (db : Db) : Nat :=
  (db.filter fun r => r.end_time.isNone).length

/-- The spec's data-model invariant: at most one interval with `end` absent. -/
def dbInvariant (db : Db) : Prop := openCount db ≤ 1

instance (db : Db) : Decidable (dbInvariant db) := by
  unfold dbInvariant; infer_instance

/-- The two storage mutations the daemon ever performs (`src/db.rs`):
closing the open interval, and switching to a new activity. -/
inductive DbOp where
  | endCur (ts : Int)
  | switch (name : String) (tsEnd tsStart : Int)
deriving Repr, DecidableEq

/-- Apply one storage mutation to the table. -/
def applyOp (op : DbOp) (db : Db) : Db :=
  match op with
  | .endCur ts => end_current_activity ts db
  | .switch n tsEnd tsStart => switch_activity n tsEnd tsStart db

/-- Apply a sequence of storage mutations, oldest first. -/
def applyOps (ops : List DbOp) (db : Db) : Db :=
  ops.foldl (fun db op => applyOp op db) db

lemma openCount_end_current_activity (ts : Int) (db : Db) :
    openCount (end_current_activity ts db) = 0 := by
  induction db with
  | nil => rfl
  | cons r rest ih =>
    cases h : r.end_time <;>
      simp [end_current_activity, openCount, List.filter] at ih ⊢ <;>
      simpa [end_current_activity, openCount, h] using ih

lemma openCount_append (d₁ d₂ : Db) :
    openCount (d₁ ++ d₂) = openCount d₁ + openCount d₂ := by
  simp [openCount, List.filter_append]

lemma openCount_switch_activity (n : String) (tsEnd tsStart : Int) (db : Db) :
    openCount (switch_activity n tsEnd tsStart db) = 1 := by
  unfold switch_activity
  rw [openCount_append, openCount_end_current_activity]
  rfl

/-- `Database::get_current_activity` (`src/db.rs` lines 81-95): the name of
the most recently started open interval, or the sentinel string when no row
has a NULL `end_time`.  The SQL orders open rows by `start_time DESC` and
takes the first. -/
def get_current_activity (db : Db) : String :=
  let open_rows := db.filter fun r => r.end_time.isNone
  let sorted := open_rows.mergeSort fun a b => b.start_time ≤ a.start_time
  match sorted with
  | a :: _ => a.name
  | [] => "No current activity"

/-! ### Summary (`Database::get_summary`, `src/db.rs` lines 97-137) -/

/-- The SQL row filter of `get_summary`:
`start_time < ? AND (end_time IS NULL OR end_time > ?)` with the end bound
and start bound of the window bound as the two parameters. -/
def sqlSummaryFilter (startB endB : Int) (a : Activity) : Bool :=
  decide (a.start_time < endB) &&
    (match a.end_time with
     | none => true
     | some et => decide (startB < et))

/-- Total seconds attributed by `get_summary` to activity name `n`:
the projection at key `n` of the `time_spent` HashMap the Rust loop builds.
Bounds are optional `DateTime`s defaulting to `Utc::now()` (`now`); each row
passing the SQL filter contributes
`min(end_bound, activity_end) − max(start_bound, start)` where an open row's
`activity_end` is the window's end bound, and only strictly positive
durations are accumulated. -/
def get_summary_dur (now : Int) (start_time end_time : Option Int)
    (db : Db) (n : String) : Int :=
  let startB := start_time.getD now
  let endB := end_time.getD now
  (db.filter (sqlSummaryFilter startB endB)).foldl
    (fun acc a =>
      let activity_end :=
        match a.end_time with
        | some ts => ts
        | none => endB
      let duration := min endB activity_end - max startB a.start_time
      if a.name = n ∧ 0 < duration then acc + duration else acc)
    0

/-- `format_duration` (`src/db.rs` lines 140-158 and the identical copy in
`src/daemon.rs` lines 19-37) for the nonnegative durations the daemon ever
formats (summary entries and elapsed times): hour, minute and second parts
pushed when nonzero and joined with single spaces, `"0s"` when all are
zero. -/
def format_duration (d : Nat) : String :=
  let parts : List String := []
  let hours := d / 3600
  let parts := if 0 < hours then parts ++ [toString hours ++ "h"] else parts
  let minutes := d / 60 % 60
  let parts := if 0 < minutes then parts ++ [toString minutes ++ "m"] else parts
  let seconds := d % 60
  let parts := if 0 < seconds then parts ++ [toString seconds ++ "s"] else parts
  if parts.isEmpty then "0s" else String.intercalate " " parts

/-- The formatted mapping `get_summary` returns, viewed at key `n`: the key
is present exactly when some positive duration was accumulated for it (all
accumulated contributions are positive, so that is exactly when the
projected total is positive), and its value is the formatted total. -/
def get_summary (now : Int) (start_time end_time : Option Int)
    (db : Db) (n : String) : Option String :=
  let d := get_summary_dur now start_time end_time db n
  if 0 < d then some (format_duration d.toNat) else none

/-- The duration format exactly as the spec sentence words it: the text
`NhNmNs` with zero-valued *leading and trailing* units omitted (interior
zero units kept, no separators), `"0s"` when the duration is zero. -/
def specFormatNhNmNs (d : Nat) : String :=
  let units := [(d / 3600, "h"), (d / 60 % 60, "m"), (d % 60, "s")]
  let trimmed :=
    (((units.dropWhile fun u => u.1 = 0).reverse.dropWhile fun u => u.1 = 0).reverse)
  if trimmed.isEmpty then "0s"
  else String.join (trimmed.map fun u => toString u.1 ++ u.2)

/-- The amended wording of the duration format: the nonzero units among
`Nh`, `Nm`, `Ns` joined by single spaces — every zero-valued unit omitted,
interior ones included — and `"0s"` when all three are zero. -/
def spacedNonzeroUnits (d : Nat) : String :=
  let units := [(d / 3600, "h"), (d / 60 % 60, "m"), (d % 60, "s")]
  let nonzero := units.filter fun u => decide (0 < u.1)
  if nonzero.isEmpty then "0s"
  else String.intercalate " " (nonzero.map fun u => toString u.1 ++ u.2)

/-- The per-interval contribution exactly as the spec sentence words it:
`min(end_bound, interval.end_or_now) − max(start_bound, interval.start)`,
clamped to zero if negative, where an open interval's `end_or_now` is the
wall-clock time `now`. -/
def specContribution (now startB endB : Int) (a : Activity) : Int :=
  max 0 (min endB (a.end_time.getD now) - max startB a.start_time)

/-- Activity-wise total of the spec's per-interval contributions over the
whole table (no row excluded). -/
def specSummaryDur (now startB endB : Int) (db : Db) (n : String) : Int :=
  db.foldl (fun acc a => if a.name = n then acc + specContribution now startB endB a else acc) 0

/-- The amended per-interval contribution: open intervals are clipped at the
window's *end bound* (the value the code substitutes for a NULL `end_time`),
not at wall-clock now. -/
def clippedContribution (startB endB : Int) (a : Activity) : Int :=
  max 0 (min endB (a.end_time.getD endB) - max startB a.start_time)

/-- Activity-wise total of the amended contributions over the whole table. -/
def clippedSummaryDur (startB endB : Int) (db : Db) (n : String) : Int :=
  db.foldl (fun acc a => if a.name = n then acc + clippedContribution startB endB a else acc) 0

lemma foldl_guard_eq_sum (c : Activity → Prop) [DecidablePred c] (g : Activity → Int)
    (l : List Activity) (acc : Int) :
    l.foldl (fun acc a => if c a then acc + g a else acc) acc
      = acc + (l.map fun a => if c a then g a else 0).sum := by
  induction l generalizing acc with
  | nil => simp
  | cons a l ih => by_cases h : c a <;> simp [h, ih, add_assoc]

lemma sum_map_filter_eq_sum_guard (p : Activity → Bool) (g : Activity → Int)
    (l : List Activity) :
    ((l.filter p).map g).sum = (l.map fun a => if p a then g a else 0).sum := by
  induction l with
  | nil => rfl
  | cons a l ih => by_cases h : p a <;> simp [List.filter_cons, h, ih]

/-- The raw window-clipped duration of one row, before the positivity test:
`min(end_bound, activity_end) − max(start_bound, start)` with an open row's
`activity_end` being the window's end bound. -/
def rawDuration (startB endB : Int) (a : Activity) : Int :=
  min endB (match a.end_time with | some ts => ts | none => endB) - max startB a.start_time

lemma clippedContribution_eq_guard (startB endB : Int) (a : Activity) :
    clippedContribution startB endB a
      = if sqlSummaryFilter startB endB a then
          (if 0 < rawDuration startB endB a then rawDuration startB endB a else 0)
        else 0 := by
  rcases a with ⟨i, nm, s, e⟩
  cases e <;>
    simp only [clippedContribution, sqlSummaryFilter, rawDuration, Option.getD,
      Bool.and_eq_true, decide_eq_true_eq] <;>
    split_ifs <;>
    simp_all <;>
    omega

/-- Eliminating the SQL filter and the positivity guard: the per-name total
computed by `get_summary` equals the clamped whole-table sum of the amended
contributions. -/
lemma get_summary_dur_eq_clipped (now : Int) (s e : Option Int) (db : Db) (n : String) :
    get_summary_dur now s e db n = clippedSummaryDur (s.getD now) (e.getD now) db n := by
  unfold get_summary_dur clippedSummaryDur
  rw [foldl_guard_eq_sum, foldl_guard_eq_sum, zero_add, zero_add,
    sum_map_filter_eq_sum_guard]
  congr 1
  apply List.map_congr_left
  intro a _
  by_cases hn : a.name = n
  · simp only [hn, if_true, true_and, clippedContribution_eq_guard, rawDuration]
  · simp [hn]

lemma clippedContribution_split (a b c : Int) (hab : a ≤ b) (hbc : b ≤ c) (r : Activity) :
    clippedContribution a c r
      = clippedContribution a b r + clippedContribution b c r := by
  rcases r with ⟨i, nm, s, e⟩
  cases e <;> simp only [clippedContribution, Option.getD] <;> omega

lemma clippedSummaryDur_split (a b c : Int) (hab : a ≤ b) (hbc : b ≤ c)
    (db : Db) (n : String) :
    clippedSummaryDur a c db n
      = clippedSummaryDur a b db n + clippedSummaryDur b c db n := by
  unfold clippedSummaryDur
  rw [foldl_guard_eq_sum, foldl_guard_eq_sum, foldl_guard_eq_sum]
  simp only [zero_add]
  induction db with
  | nil => simp
  | cons r rest ih =>
    simp only [List.map_cons, List.sum_cons, ih]
    by_cases hn : r.name = n
    · simp [hn, clippedContribution_split a b c hab hbc r]; ring
    · simp [hn]

lemma clippedContribution_degenerate (now : Int) (a : Activity) :
    clippedContribution now now a = 0 := by
  rcases a with ⟨i, nm, s, e⟩
  cases e <;> simp only [clippedContribution, Option.getD] <;> omega

/-! ### Date parsing (`parse_datetime`, `src/daemon.rs` lines 61-77)

The code delegates to the chrono crate.  The relevant chrono behaviour is
modelled here: a numeric format item consumes one up to a maximum number of
digits greedily (4 for `%Y` without an explicit sign, 2 for `%m %d %H %M %S`),
a literal item consumes exactly itself, a whitespace item consumes any run of
whitespace, parsing fails when input remains after all items, fields are
range-checked when the parsed fields are resolved, and — decisive for the
first branch — `DateTime::parse_from_str` resolves through
`Parsed::to_datetime`, which demands a UTC-offset field; no item of the
format `"%Y-%m-%d %H:%M:%S"` sets one, so that resolution always fails.
Sign-prefixed years are not exercised by any claim and are not modelled. -/

/-- A wall-clock date-time in the local timezone, as the fields of the
`DateTime<Local>` that `parse_datetime` returns.  The model treats the local
timezone as UTC (offset zero). -/
structure LocalDateTime where
  year : Int
  month : Nat
  day : Nat
  hour : Nat
  minute : Nat
  second : Nat
deriving Repr, DecidableEq

/-- Consume up to `maxW` leading digits. -/
def takeDigits : Nat → List Char → List Char × List Char
  | 0, cs => ([], cs)
  | _, [] => ([], [])
  | w + 1, c :: cs =>
    if c.isDigit then
      let (ds, rest) := takeDigits w cs
      (c :: ds, rest)
    else ([], c :: cs)

/-- Numeric value of a digit run. -/
def digitsToNat (ds : List Char) : Nat :=
  ds.foldl (fun acc c => acc * 10 + (c.toNat - 48)) 0

/-- chrono's numeric scan: between 1 and `maxW` digits, greedy. -/
def scanNumber (maxW : Nat) (cs : List Char) : Option (Nat × List Char) :=
  let (ds, rest) := takeDigits maxW cs
  if ds.isEmpty then none else some (digitsToNat ds, rest)

/-- A literal format character must match exactly. -/
def expectLit (c : Char) : List Char → Option (List Char)
  | x :: rest => if x = c then some rest else none
  | [] => none

/-- A whitespace format item consumes any (possibly empty) whitespace run. -/
def skipWhitespace (cs : List Char) : List Char :=
  cs.dropWhile Char.isWhitespace

/-- chrono leap-year rule (proleptic Gregorian). -/
def isLeapYear (y : Int) : Bool :=
  (y % 4 = 0 && y % 100 ≠ 0) || y % 400 = 0

/-- Days in a month of the proleptic Gregorian calendar. -/
def daysInMonth (y : Int) (m : Nat) : Nat :=
  match m with
  | 1 => 31 | 2 => if isLeapYear y then 29 else 28 | 3 => 31
  | 4 => 30 | 5 => 31 | 6 => 30 | 7 => 31 | 8 => 31
  | 9 => 30 | 10 => 31 | 11 => 30 | 12 => 31 | _ => 0

/-- Calendar-validity check chrono applies when resolving parsed fields to a
`NaiveDate`. -/
def validYmd (y : Int) (m d : Nat) : Bool :=
  1 ≤ m && m ≤ 12 && 1 ≤ d && d ≤ daysInMonth y m

/-- The field record chrono's parser fills (`Parsed`), restricted to the
fields the three formats of `parse_datetime` can set.  `offset` is set only
by a UTC-offset item such as `%z`; none of the three formats contains one. -/
structure ParsedFields where
  year : Nat
  month : Nat
  day : Nat
  hour : Nat
  minute : Nat
  second : Nat
  offset : Option Int
deriving Repr, DecidableEq

/-- Running the format items of `"%Y-%m-%d %H:%M:%S"` over the input:
year, `-`, month, `-`, day, whitespace, hour, `:`, minute, `:`, second,
then the input must be exhausted.  The format has no offset item, so the
resulting field record always has `offset = none`. -/
def parseFieldsYmdHms (s : String) : Option ParsedFields :=
  match scanNumber 4 s.toList with
  | none => none
  | some (y, cs) =>
  match expectLit '-' cs with
  | none => none
  | some cs =>
  match scanNumber 2 cs with
  | none => none
  | some (mo, cs) =>
  match expectLit '-' cs with
  | none => none
  | some cs =>
  match scanNumber 2 cs with
  | none => none
  | some (d, cs) =>
  match scanNumber 2 (skipWhitespace cs) with
  | none => none
  | some (h, cs) =>
  match expectLit ':' cs with
  | none => none
  | some cs =>
  match scanNumber 2 cs with
  | none => none
  | some (mi, cs) =>
  match expectLit ':' cs with
  | none => none
  | some cs =>
  match scanNumber 2 cs with
  | none => none
  | some (se, cs) =>
  if cs.isEmpty then some ⟨y, mo, d, h, mi, se, none⟩ else none

/-- chrono `Parsed::to_datetime`: resolving a parsed field record to an
offset-carrying `DateTime` requires an offset field (`NOT_ENOUGH` otherwise)
and range-checks the calendar fields. -/
def parsedToDatetime (p : ParsedFields) : Option LocalDateTime :=
  match p.offset with
  | none => none
  | some _ =>
    if validYmd (p.year : Int) p.month p.day
        && p.hour < 24 && p.minute < 60 && p.second < 60 then
      some ⟨(p.year : Int), p.month, p.day, p.hour, p.minute, p.second⟩
    else none

/-- `DateTime::parse_from_str(s, "%Y-%m-%d %H:%M:%S")`: run the format's
items, then resolve via `Parsed::to_datetime`. -/
def datetimeParseFromStrYmdHms (s : String) : Option LocalDateTime :=
  (parseFieldsYmdHms s).bind parsedToDatetime

/-- `NaiveDate::parse_from_str(s, "%Y-%m-%d")`: year, `-`, month, `-`, day,
input exhausted, fields resolved to a valid calendar date. -/
def naiveDateParseYmd (s : String) : Option (Int × Nat × Nat) :=
  match scanNumber 4 s.toList with
  | none => none
  | some (y, cs) =>
  match expectLit '-' cs with
  | none => none
  | some cs =>
  match scanNumber 2 cs with
  | none => none
  | some (mo, cs) =>
  match expectLit '-' cs with
  | none => none
  | some cs =>
  match scanNumber 2 cs with
  | none => none
  | some (d, cs) =>
  if cs.isEmpty && validYmd (y : Int) mo d then some ((y : Int), mo, d) else none

/-- `NaiveDate::parse_from_str(s, "%d/%m/%Y")`: day, `/`, month, `/`, year,
input exhausted, fields resolved to a valid calendar date. -/
def naiveDateParseDmy (s : String) : Option (Int × Nat × Nat) :=
  match scanNumber 2 s.toList with
  | none => none
  | some (d, cs) =>
  match expectLit '/' cs with
  | none => none
  | some cs =>
  match scanNumber 2 cs with
  | none => none
  | some (mo, cs) =>
  match expectLit '/' cs with
  | none => none
  | some cs =>
  match scanNumber 4 cs with
  | none => none
  | some (y, cs) =>
  if cs.isEmpty && validYmd (y : Int) mo d then some ((y : Int), mo, d) else none

/-- `parse_datetime` (`src/daemon.rs` lines 61-77): try
`DateTime::parse_from_str` with `"%Y-%m-%d %H:%M:%S"`, then
`NaiveDate::parse_from_str` with `"%Y-%m-%d"`, then with `"%d/%m/%Y"`; a
date-only hit gets midnight via `and_hms_opt(0, 0, 0)` and is interpreted in
the local timezone (`Local.from_local_datetime`, the identity on fields in
this model); otherwise the error `"Invalid date format"`. -/
def parse_datetime (s : String) : Except String LocalDateTime :=
  match datetimeParseFromStrYmdHms s with
  | some dt => .ok dt
  | none =>
  match naiveDateParseYmd s with
  | some (y, mo, d) => .ok ⟨y, mo, d, 0, 0, 0⟩
  | none =>
  match naiveDateParseDmy s with
  | some (y, mo, d) => .ok ⟨y, mo, d, 0, 0, 0⟩
  | none => .error "Invalid date format"

/-! ### The daemon event loop (`Daemon::run`, `src/daemon.rs` lines 238-290) -/

/-- `DaemonEvent` (`src/daemon.rs` lines 39-44): the sum type flowing
through the multiplexer queue. -/
inductive DaemonEvent where
  | kdeActivityChanged (activity : String)
  | idleStatusChanged (idle : Bool)
  | sleepingNow
  | wakingNow
deriving Repr, DecidableEq

/-- An observable call the event branch of the loop can make: a directory
query or one of the two storage mutations. -/
inductive CoreCall where
  | queryCurrentActivity
  | dbSwitchActivity (name : String)
  | dbEndCurrentActivity
deriving Repr, DecidableEq

/-- The calls the `event = self.event_rx.recv()` branch of `Daemon::run`
makes for one dequeued event (`src/daemon.rs` lines 256-285), in order,
where `it` is the answer the activity directory currently gives to
`query_current_activity`. -/
def eventCalls (it : String) : DaemonEvent → List CoreCall
  | .kdeActivityChanged activity => [.dbSwitchActivity activity]
  | .idleStatusChanged idle =>
    if idle then [.dbEndCurrentActivity]
    else [.queryCurrentActivity, .dbSwitchActivity it]
  | .sleepingNow => [.dbEndCurrentActivity]
  | .wakingNow => [.queryCurrentActivity, .dbSwitchActivity it]

/-- The spec's transition table, row by row: activity-changed(n) switches to
n; idle-status-changed(true) ends the current activity;
idle-status-changed(false) queries the directory and switches to the answer;
sleeping-now ends the current activity; waking-now queries the directory and
switches to the answer. -/
def specTransitionTable (it : String) (e : DaemonEvent) : List CoreCall :=
  match e with
  | .kdeActivityChanged n => [.dbSwitchActivity n]
  | .idleStatusChanged true => [.dbEndCurrentActivity]
  | .idleStatusChanged false => [.queryCurrentActivity, .dbSwitchActivity it]
  | .sleepingNow => [.dbEndCurrentActivity]
  | .wakingNow => [.queryCurrentActivity, .dbSwitchActivity it]

/-- Effect of one dequeued event on the interval table, per the same match
(`src/daemon.rs` lines 256-285): `tsEnd`/`tsStart` are the clock values the
storage operations read. -/
def applyEvent (it : String) (e : DaemonEvent) (tsEnd tsStart : Int) (db : Db) : Db :=
  match e with
  | .kdeActivityChanged activity => switch_activity activity tsEnd tsStart db
  | .idleStatusChanged idle =>
    if idle then end_current_activity tsEnd db
    else switch_activity it tsEnd tsStart db
  | .sleepingNow => end_current_activity tsEnd db
  | .wakingNow => switch_activity it tsEnd tsStart db

/-- One dequeued event together with the clock values its processing reads
and an optional storage-engine failure injected while processing it. -/
structure LoopEvent where
  event : DaemonEvent
  fault : Option String
  tsEnd : Int
  tsStart : Int
deriving Repr, DecidableEq

/-- The event branch of the main loop over a queue of events: each event's
storage work either fails — and then the `?` operator on the
`db.switch_activity(..).await?` / `db.end_current_activity().await?` call
returns the error from `Daemon::run`, ending the loop — or succeeds, and the
loop recurs on the rest of the queue. -/
def runDaemonEvents (it : String) : List LoopEvent → Db → Except String Db
  | [], db => .ok db
  | le :: rest, db =>
    match le.fault with
    | some err => .error err
    | none => runDaemonEvents it rest (applyEvent it le.event le.tsEnd le.tsStart db)

/-- A fault-free loop event. -/
def okEvent (e : DaemonEvent) (tsEnd tsStart : Int) : LoopEvent :=
  ⟨e, none, tsEnd, tsStart⟩

lemma runDaemonEvents_ok_cons (it : String) (e : DaemonEvent) (tsEnd tsStart : Int)
    (rest : List LoopEvent) (db : Db) :
    runDaemonEvents it (okEvent e tsEnd tsStart :: rest) db
      = runDaemonEvents it rest (applyEvent it e tsEnd tsStart db) := rfl

/-! ### The query server (`handle_unix_client`, `src/daemon.rs` lines 79-169) -/

/-- `Action` (`src/main.rs` lines 14-23): the request payload decoded from a
client connection. -/
inductive Action where
  | summaryReq (start_time end_time : Option String)
  | current
deriving Repr, DecidableEq

/-- Days since the Unix epoch of a proleptic-Gregorian calendar date
(civil-from-days inverse, as chrono computes it). -/
def daysFromCivil (y : Int) (m d : Nat) : Int :=
  let y : Int := if m ≤ 2 then y - 1 else y
  let era : Int := (if 0 ≤ y then y else y - 399) / 400
  let yoe : Int := y - era * 400
  let doy : Int := (153 * (if 2 < m then (m : Int) - 3 else (m : Int) + 9) + 2) / 5 + (d : Int) - 1
  let doe : Int := yoe * 365 + yoe / 4 - yoe / 100 + doy
  era * 146097 + doe - 719468

/-- Unix timestamp of a local date-time; the model's local timezone is UTC,
so `with_timezone(&Utc).timestamp()` is the plain epoch conversion. -/
def toTimestamp (dt : LocalDateTime) : Int :=
  daysFromCivil dt.year dt.month dt.day * 86400
    + (dt.hour : Int) * 3600 + (dt.minute : Int) * 60 + (dt.second : Int)

/-- Modelled from the spec: `Database::get_current_activity_elapsed_time` is
called by the query server (`src/daemon.rs` line 148) but its definition is
not among the provided sources.  Spec §4.1, `current_elapsed()`: returns
`now − start` of the open interval, or absent if none; the open row is
selected like `get_current_activity` selects it. -/
def get_current_activity_elapsed_time (now : Int) (db : Db) : Option Int :=
  let open_rows := db.filter fun r => r.end_time.isNone
  let sorted := open_rows.mergeSort fun a b => b.start_time ≤ a.start_time
  match sorted with
  | a :: _ => some (now - a.start_time)
  | [] => none

/-- Left-align a cell to width `w` with spaces (`{:<w$}`). -/
def padCell (s : String) (w : Nat) : String :=
  s ++ String.mk (List.replicate (w - s.length) ' ')

/-- A run of `w` dashes (`{:->w$}` applied to the empty string). -/
def dashes (w : Nat) : String :=
  String.mk (List.replicate w '-')

/-- The activity names owning a positive total in the summary window, in
first-appearance table order (the Rust `HashMap` iterates its keys in an
unspecified order; the model fixes insertion order). -/
def summaryNames (now : Int) (start_time end_time : Option Int) (db : Db) : List String :=
  (((db.filter (sqlSummaryFilter (start_time.getD now) (end_time.getD now))).map
      Activity.name).eraseDups).filter
    fun n => decide (0 < get_summary_dur now start_time end_time db n)

/-- The resolved rows of the summary response (`src/daemon.rs` lines
107-118): each activity identifier is looked up in the activity directory
(`query_activity_info`, modelled as the function `dirInfo` answering
`(name, description)`); an empty directory name falls back to the raw
identifier; the duration is formatted with `format_duration`. -/
def resolvedSummary (dirInfo : String → String × String) (now : Int)
    (start_time end_time : Option Int) (db : Db) : List (String × String) :=
  (summaryNames now start_time end_time db).map fun uuid =>
    (if (dirInfo uuid).1 = "" then uuid else (dirInfo uuid).1,
     format_duration (get_summary_dur now start_time end_time db uuid).toNat)

/-- The summary response text (`src/daemon.rs` lines 104-144): column widths
sized to content with the header words as minimum, a dashed separator line,
a header row, the data rows, and a trailing separator. -/
def renderSummaryTable (rows : List (String × String)) : String :=
  let max_activity_len := rows.foldl (fun m r => max m r.1.length) "Activity".length
  let max_duration_len := rows.foldl (fun m r => max m r.2.length) "Duration".length
  let separator := dashes max_activity_len ++ "-+" ++ dashes max_duration_len ++ "\n"
  separator
    ++ padCell "Activity" max_activity_len ++ " | " ++ padCell "Duration" max_duration_len ++ "\n"
    ++ separator
    ++ String.join (rows.map fun r =>
        padCell r.1 max_activity_len ++ " | " ++ padCell r.2 max_duration_len ++ "\n")
    ++ separator

/-- `handle_unix_client` (`src/daemon.rs` lines 79-169), after the request
has been decoded: for `Summary`, each supplied bound is parsed with
`parse_datetime` — a failure is wrapped by `.context("Failed to parse
start_time")` (resp. `end_time`) and aborts the handler before any storage
access — then the summary is computed, resolved against the activity
directory and rendered; for `Current`, the current activity and elapsed time
are fetched and the three response lines written.  The handler only ever
issues SELECT queries against storage (`get_summary`,
`get_current_activity`, the elapsed-time lookup), never a mutation, so the
interval table it runs against is returned unchanged by `clientSession`
below. -/
def handle_unix_client (dirInfo : String → String × String) (now : Int)
    (action : Action) (db : Db) : Except String String :=
  match action with
  | .summaryReq start_time end_time => do
    let start ← match start_time with
      | none => pure none
      | some s => match parse_datetime s with
        | .ok dt => pure (some dt)
        | .error _ => .error "Failed to parse start_time"
    let endB ← match end_time with
      | none => pure none
      | some s => match parse_datetime s with
        | .ok dt => pure (some dt)
        | .error _ => .error "Failed to parse end_time"
    let rows := resolvedSummary dirInfo now (start.map toTimestamp) (endB.map toTimestamp) db
    pure (renderSummaryTable rows)
  | .current =>
    let current_uuid := get_current_activity db
    let elapsed_time := get_current_activity_elapsed_time now db
    let resolved :=
      if (dirInfo current_uuid).1 = "" then (current_uuid, "")
      else dirInfo current_uuid
    pure ("Current Activity: " ++ resolved.1 ++ "\nDescription: " ++ resolved.2
      ++ "\nElapsed Time: "
      ++ (match elapsed_time with
          | none => "N/A"
          | some d => format_duration d.toNat) ++ "\n")

/-- One full client connection as the daemon serves it (`src/daemon.rs`
lines 227-233): the handler's output goes to the client; on a handler error
the daemon writes the single line `Error: <message>\n` back to the same
connection.  The second component is the interval table after the request
(the handler performs no mutation). -/
def clientSession (dirInfo : String → String × String) (now : Int)
    (action : Action) (db : Db) : String × Db :=
  match handle_unix_client dirInfo now action db with
  | .ok out => (out, db)
  | .error e => ("Error: " ++ e ++ "\n", db)

/-! ### Remaining helpers for the claims -/

/-- An interval fully contained in the window `[a, c)`: it starts inside the
window and, when closed, ends no later than `c`. -/
def containedIn (a c : Int) (r : Activity) : Bool :=
  decide (a ≤ r.start_time) && decide (r.start_time ≤ c) &&
    (match r.end_time with
     | some t => decide (t ≤ c)
     | none => true)

/-- `end_current_activity` with its `Result`: the function fails exactly
when the storage engine fails (`engineFault`); an `UPDATE` matching zero
rows is a success, so the no-open-interval case returns `Ok`. -/
def end_current_activity_result (engineFault : Option String) (ts : Int) (db : Db) :
    Except String Db :=
  match engineFault with
  | some e => .error e
  | none => .ok (end_current_activity ts db)

lemma clippedSummaryDur_degenerate (now : Int) (db : Db) (n : String) :
    clippedSummaryDur now now db n = 0 := by
  unfold clippedSummaryDur
  rw [foldl_guard_eq_sum, zero_add]
  apply List.sum_eq_zero
  intro x hx
  rcases List.mem_map.mp hx with ⟨a, _, rfl⟩
  split_ifs
  · rw [clippedContribution_degenerate]
  · rfl

lemma openCount_eq_zero_iff (db : Db) :
    openCount db = 0 ↔ ∀ r ∈ db, r.end_time ≠ none := by
  unfold openCount
  rw [List.length_eq_zero, List.filter_eq_nil_iff]
  constructor
  · intro h r hr
    have := h r hr
    cases he : r.end_time <;> simp [he] at this ⊢
  · intro h r hr
    have := h r hr
    cases he : r.end_time <;> simp [he] at this ⊢

lemma end_current_activity_of_closed (ts : Int) (db : Db)
    (h : openCount db = 0) : end_current_activity ts db = db := by
  rw [openCount_eq_zero_iff] at h
  unfold end_current_activity
  conv_rhs => rw [← List.map_id db]
  apply List.map_congr_left
  intro r hr
  have := h r hr
  cases he : r.end_time
  · exact absurd he this
  · simp [he]

lemma end_current_activity_idem (ts ts' : Int) (db : Db) :
    end_current_activity ts' (end_current_activity ts db)
      = end_current_activity ts db := by
  apply end_current_activity_of_closed
  exact openCount_end_current_activity ts db

/-! ### The claims -/

/-- Claim C1: for every sequence of `switch_activity` and
`end_current_activity` operations applied to a database satisfying the
invariant, at most one open interval exists after every operation;
`end_current_activity` leaves zero open intervals and `switch_activity`
leaves exactly one. -/
theorem C1_at_most_one_open_interval (db : Db) (h : dbInvariant db)
    (ops : List DbOp) (op : DbOp) :
    dbInvariant (applyOps (ops ++ [op]) db)
    ∧ (∀ ts, op = .endCur ts → openCount (applyOps (ops ++ [op]) db) = 0)
    ∧ (∀ n t₁ t₂, op = .switch n t₁ t₂ →
        openCount (applyOps (ops ++ [op]) db) = 1) := by
  have happ : applyOps (ops ++ [op]) db = applyOp op (applyOps ops db) := by
    unfold applyOps
    rw [List.foldl_append]
    rfl
  rw [happ]
  cases op with
  | endCur ts =>
    refine ⟨?_, fun ts' _ => ?_, fun n t₁ t₂ hco => by simp at hco⟩
    · simp [applyOp, dbInvariant, openCount_end_current_activity]
    · simp [applyOp, openCount_end_current_activity]
  | switch n tE tS =>
    refine ⟨?_, fun ts' hco => by simp at hco, fun n' t₁ t₂ _ => ?_⟩
    · simp [applyOp, dbInvariant, openCount_switch_activity]
    · simp [applyOp, openCount_switch_activity]

/-- Witness for C1 at a concrete sequence. -/
theorem C1_at_most_one_open_interval_witness :
    openCount (applyOps ([DbOp.switch "A" 0 0] ++ [DbOp.endCur 5]) []) = 0 :=
  (C1_at_most_one_open_interval [] (by decide) [DbOp.switch "A" 0 0]
    (DbOp.endCur 5)).2.1 5 rfl

/-- Claim C2: the storage action the multiplexer takes for every dequeued
event is exactly the spec's transition-table row — and, the call lists being
equal, no event performs any other storage mutation. -/
theorem C2_transition_table (it : String) (e : DaemonEvent) :
    eventCalls it e = specTransitionTable it e := by
  cases e with
  | kdeActivityChanged a => rfl
  | idleStatusChanged idle => cases idle <;> rfl
  | sleepingNow => rfl
  | wakingNow => rfl

/-- Counterexample to claim C3: a storage error while processing the first
event makes the loop return that error — the second event is never
processed, so the loop does not continue as the claim states. -/
theorem C3_counterexample :
    runDaemonEvents "current"
        [⟨.kdeActivityChanged "A", some "disk I/O error", 0, 0⟩,
         okEvent (.kdeActivityChanged "B") 1 1] []
      = .error "disk I/O error"
    ∧ runDaemonEvents "current"
        [⟨.kdeActivityChanged "A", some "disk I/O error", 0, 0⟩,
         okEvent (.kdeActivityChanged "B") 1 1] []
      ≠ .ok (applyEvent "current" (.kdeActivityChanged "B") 1 1 []) :=
  ⟨rfl, fun hco => Except.noConfusion hco⟩

/-- Claim C3 as amended: a storage error during one event's processing
propagates through the `?` operator out of `Daemon::run`, ending the event
loop with that error; the failed event's mutation and all queued later
events are dropped. -/
theorem C3_storage_error_exits_loop (it : String) (pre : List LoopEvent)
    (le : LoopEvent) (err : String) (rest : List LoopEvent) (db : Db)
    (hpre : ∀ x ∈ pre, x.fault = none) (hfault : le.fault = some err) :
    runDaemonEvents it (pre ++ le :: rest) db = .error err := by
  induction pre generalizing db with
  | nil => simp [runDaemonEvents, hfault]
  | cons x xs ih =>
    have hx : x.fault = none := hpre x (List.mem_cons_self x xs)
    simp only [List.cons_append, runDaemonEvents, hx]
    exact ih _ (fun y hy => hpre y (List.mem_cons_of_mem x hy))

/-- Witness for the amended C3 at a concrete queue. -/
theorem C3_storage_error_exits_loop_witness :
    runDaemonEvents "current"
        [okEvent .sleepingNow 0 0, ⟨.sleepingNow, some "disk I/O error", 1, 1⟩] []
      = .error "disk I/O error" :=
  C3_storage_error_exits_loop "current" [okEvent .sleepingNow 0 0]
    ⟨.sleepingNow, some "disk I/O error", 1, 1⟩ "disk I/O error" [] []
    (by decide) rfl

/-- Counterexample to claim C4: with intervals `A:[100,200)` and
`B:[200, open)`, wall-clock time 300 and window `[150, 400)`, the code
credits `B` with 200 seconds (the open interval is clipped at the window's
end bound), while the claim's formula
`min(end_bound, end_or_now) − max(start_bound, start)` gives 100. -/
theorem C4_counterexample :
    get_summary_dur 300 (some 150) (some 400)
        [⟨0, "A", 100, some 200⟩, ⟨1, "B", 200, none⟩] "B" = 200
    ∧ specSummaryDur 300 150 400
        [⟨0, "A", 100, some 200⟩, ⟨1, "B", 200, none⟩] "B" = 100
    ∧ get_summary_dur 300 (some 150) (some 400)
        [⟨0, "A", 100, some 200⟩, ⟨1, "B", 200, none⟩] "B"
      ≠ specSummaryDur 300 150 400
        [⟨0, "A", 100, some 200⟩, ⟨1, "B", 200, none⟩] "B" := by
  refine ⟨by decide, by decide, by decide⟩

/-- Claim C4 as amended: every stored interval contributes
`min(end_bound, interval.end) − max(start_bound, interval.start)` to its
activity's total, clamped to zero if negative, where an *open* interval's
end is taken to be the window's end bound (not wall-clock now); intervals
are clipped, not excluded, at the window boundaries (the whole-table clamped
sum needs no row filter).  The claim's scenario stands: with `A:[100,200)`,
`B:[200, open)` and wall-clock 300, `summary(150, 250)` is
`{A: 50s, B: 50s}`. -/
theorem C4_window_clipping (now : Int) (s e : Option Int) (db : Db) (n : String) :
    get_summary_dur now s e db n = clippedSummaryDur (s.getD now) (e.getD now) db n
    ∧ get_summary_dur 300 (some 150) (some 250)
        [⟨0, "A", 100, some 200⟩, ⟨1, "B", 200, none⟩] "A" = 50
    ∧ get_summary_dur 300 (some 150) (some 250)
        [⟨0, "A", 100, some 200⟩, ⟨1, "B", 200, none⟩] "B" = 50
    ∧ get_summary 300 (some 150) (some 250)
        [⟨0, "A", 100, some 200⟩, ⟨1, "B", 200, none⟩] "A" = some "50s"
    ∧ get_summary 300 (some 150) (some 250)
        [⟨0, "A", 100, some 200⟩, ⟨1, "B", 200, none⟩] "B" = some "50s" :=
  ⟨get_summary_dur_eq_clipped now s e db n, by decide, by decide, by decide, by decide⟩

/-- Claim C5: for bounds `a ≤ b ≤ c` and stored intervals each fully
contained in `[a, c)`, the summary over `[a, c)` is the activity-wise sum of
the summaries over `[a, b)` and `[b, c)` — no duration double-counted or
lost at the split point. -/
theorem C5_summary_additive (now a b c : Int) (db : Db) (n : String)
    (hab : a ≤ b) (hbc : b ≤ c)
    (hcont : ∀ r ∈ db, containedIn a c r = true) :
    get_summary_dur now (some a) (some c) db n
      = get_summary_dur now (some a) (some b) db n
        + get_summary_dur now (some b) (some c) db n := by
  rw [get_summary_dur_eq_clipped, get_summary_dur_eq_clipped,
    get_summary_dur_eq_clipped]
  exact clippedSummaryDur_split a b c hab hbc db n

/-- Witness for C5 at a concrete split window. -/
theorem C5_summary_additive_witness :
    get_summary_dur 300 (some 100) (some 250) [⟨0, "A", 120, some 200⟩] "A"
      = get_summary_dur 300 (some 100) (some 150) [⟨0, "A", 120, some 200⟩] "A"
        + get_summary_dur 300 (some 150) (some 250) [⟨0, "A", 120, some 200⟩] "A" :=
  C5_summary_additive 300 100 150 250 [⟨0, "A", 120, some 200⟩] "A"
    (by decide) (by decide) (by decide)

/-- Claim C6: `end_current_activity` is idempotent — running it twice in a
row yields the same persisted state as running it once, and with no open
interval it is a no-op whose `UPDATE` matches zero rows and still returns
success. -/
theorem C6_end_current_idempotent (db : Db) (ts ts' : Int) :
    end_current_activity ts' (end_current_activity ts db)
        = end_current_activity ts db
    ∧ (openCount db = 0 →
        end_current_activity ts db = db
        ∧ end_current_activity_result none ts db = .ok db) := by
  refine ⟨end_current_activity_idem ts ts' db, fun h => ⟨?_, ?_⟩⟩
  · exact end_current_activity_of_closed ts db h
  · unfold end_current_activity_result
    rw [end_current_activity_of_closed ts db h]

/-- Witness for C6: one open interval closed twice, and a fully closed table
left untouched. -/
theorem C6_end_current_idempotent_witness :
    end_current_activity 7 (end_current_activity 5 [⟨0, "A", 1, none⟩])
        = end_current_activity 5 [⟨0, "A", 1, none⟩]
    ∧ end_current_activity 5 [⟨0, "A", 1, some 2⟩] = [⟨0, "A", 1, some 2⟩] :=
  ⟨(C6_end_current_idempotent [⟨0, "A", 1, none⟩] 5 7).1,
   ((C6_end_current_idempotent [⟨0, "A", 1, some 2⟩] 5 7).2 (by decide)).1⟩

/-- Claim C7, evaluated at the failing input: the string
`"2024-01-02 03:04:05"` matches the format `%Y-%m-%d %H:%M:%S` item by item,
yet `DateTime::parse_from_str` rejects it (its resolution demands a UTC
offset the format cannot supply), the two `NaiveDate` formats reject it too,
and `parse_datetime` therefore errors on it — while the date-only formats
do parse. -/
theorem C7_first_format_unreachable :
    (parseFieldsYmdHms "2024-01-02 03:04:05").isSome = true
    ∧ datetimeParseFromStrYmdHms "2024-01-02 03:04:05" = none
    ∧ parse_datetime "2024-01-02 03:04:05" = .error "Invalid date format"
    ∧ parse_datetime "2024-01-02" = .ok ⟨2024, 1, 2, 0, 0, 0⟩
    ∧ parse_datetime "02/01/2024" = .ok ⟨2024, 1, 2, 0, 0, 0⟩
    ∧ parse_datetime "not-a-date" = .error "Invalid date format" :=
  ⟨rfl, rfl, rfl, rfl, rfl, rfl⟩

/-- Claim C8: a `Summary` request whose `start_time` is the malformed date
`"not-a-date"` gets the single line `Error: Failed to parse start_time\n`
written back on its own connection, and the interval table after the request
is the table it started with. -/
theorem C8_malformed_date_error_response (dirInfo : String → String × String)
    (now : Int) (db : Db) (end_time : Option String) :
    clientSession dirInfo now (.summaryReq (some "not-a-date") end_time) db
      = ("Error: Failed to parse start_time\n", db) := by
  have hp : parse_datetime "not-a-date" = .error "Invalid date format" := rfl
  simp [clientSession, handle_unix_client, hp, Bind.bind, Except.bind]

/-- Claim C9: `get_summary` defaults an omitted start bound and an omitted
end bound each to the current time, so with both bounds omitted the window
is the degenerate `[now, now)` and the returned mapping is empty whatever
the stored intervals. -/
theorem C9_default_bounds_current_time (now : Int) (db : Db) (n : String) :
    get_summary_dur now none none db n
        = get_summary_dur now (some now) (some now) db n
    ∧ get_summary_dur now none none db n = 0
    ∧ get_summary now none none db n = none := by
  have h0 : get_summary_dur now none none db n = 0 := by
    rw [get_summary_dur_eq_clipped]
    exact clippedSummaryDur_degenerate now db n
  refine ⟨rfl, h0, ?_⟩
  simp [get_summary, h0]

/-- Counterexample to claim C10: at 3605 seconds the code prints `"1h 5s"` —
parts are space-separated and the interior zero minutes part is omitted —
not the claim's `NhNmNs` text `"1h0m5s"` in which only leading and trailing
zero units are dropped. -/
theorem C10_counterexample :
    format_duration 3605 = "1h 5s"
    ∧ specFormatNhNmNs 3605 = "1h0m5s"
    ∧ format_duration 3605 ≠ specFormatNhNmNs 3605 := by
  refine ⟨rfl, rfl, by decide⟩

/-- Claim C10 as amended: every formatted duration is the nonzero units
among `Nh`, `Nm`, `Ns` joined by single spaces — every zero-valued unit
omitted, interior ones included — and the literal `0s` when the duration is
zero. -/
theorem C10_duration_format (d : Nat) :
    format_duration d = spacedNonzeroUnits d := by
  unfold format_duration spacedNonzeroUnits
  rcases Nat.eq_zero_or_pos (d / 3600) with h1 | h1 <;>
    rcases Nat.eq_zero_or_pos (d / 60 % 60) with h2 | h2 <;>
    rcases Nat.eq_zero_or_pos (d % 60) with h3 | h3 <;>
    simp [h1, h2, h3, Nat.pos_iff_ne_zero, List.filter]

end KTimeTracker
